import Mathlib

set_option linter.unusedVariables false

/-! # Verification of the feature-engineering / forecasting core of `utils.py`

Shallow embedding of `validate_dataframe`, `prepare_features` and
`predict_future` from `src/utils.py`.

Conventions of the embedding:
* pandas float values are modelled as rationals (`ℚ`); a NaN cell
  (missing value, or a value that `pd.to_numeric(..., errors='coerce')`
  could not parse) is modelled as `none` of an `Option`;
* a calendar period `date(year, month, 1)` is modelled by its month index
  `year * 12 + (month - 1) : Int`, which supports the comparisons and the
  `+ DateOffset(months=i)` arithmetic the source performs on first-of-month
  timestamps;
* the trained regressor is an opaque `Model := Feat → Option ℚ`; a `none`
  result models `model.predict` raising an exception;
* the distinct Indonesian error / warning strings appended by
  `validate_dataframe` are modelled by the inductives `VErr` / `VWarn`.
-/

/-- One row of the uploaded CSV after the in-place
`pd.to_numeric(..., errors='coerce')` coercion done by `validate_dataframe`
(lines 64-66): `none` models a NaN cell.  The product-name column
`Nama Item` is modelled as always present (string), matching the
repository's data files. -/
structure RawRow where
  tahun : Option ℚ
  bulan : Option ℚ
  item : String
  qty : Option ℚ
deriving DecidableEq, Repr

/-- A raw table: which of the four required columns
`['Tahun', 'Bulan', 'Nama Item', 'total_jumlah']` are present, and the rows. -/
structure RawTable where
  hasTahun : Bool
  hasBulan : Bool
  hasItem : Bool
  hasTotal : Bool
  rows : List RawRow
deriving DecidableEq, Repr

/-- The distinct fatal messages `validate_dataframe` can append to `errors`. -/
inductive VErr where
  | missingCols
  | bulanRange
  | emptyDf
deriving DecidableEq, Repr

/-- The distinct advisory messages `validate_dataframe` can append to `warnings`. -/
inductive VWarn where
  | missingVals
  | tahunRange
  | negQty
deriving DecidableEq, Repr

/-- The dict `{'is_valid': ..., 'errors': ..., 'warnings': ...}`. -/
structure ValidationResult where
  is_valid : Bool
  errors : List VErr
  warnings : List VWarn
deriving DecidableEq, Repr

/-- `Series.min()` skips NaN cells and is itself NaN (`none`) when no
numeric value exists; the argument is the list of non-NaN values. -/
def colMin : List ℚ → Option ℚ
  | [] => none
  | x :: xs => some (xs.foldl min x)

/-- `Series.max()`, NaN-skipping as above. -/
def colMax : List ℚ → Option ℚ
  | [] => none
  | x :: xs => some (xs.foldl max x)

/-- The range test `series.min() < lo or series.max() > hi`.  A comparison
against NaN is `False` in Python, so when the column holds no numeric value
at all the test is `false` — the embedding mirrors this by matching on the
NaN-skipping min/max. -/
def rangeViolation (vals : List ℚ) (lo hi : ℚ) : Bool :=
  match colMin vals, colMax vals with
  | some a, some b => decide (a < lo) || decide (hi < b)
  | _, _ => false

/-- Lines 72-75: `df[required_cols].isnull().sum() > 0` — some cell of the
numeric required columns is NaN (`Nama Item` is modelled NaN-free). -/
def missingWarn (t : RawTable) : List VWarn :=
  if t.rows.any (fun r => r.tahun.isNone || r.bulan.isNone || r.qty.isNone) then
    [VWarn.missingVals] else []

/-- Lines 78-79: advisory year range check. -/
def tahunWarn (t : RawTable) : List VWarn :=
  if rangeViolation (t.rows.filterMap (fun r => r.tahun)) 1900 2100 then
    [VWarn.tahunRange] else []

/-- Lines 81-83: the fatal month range check. -/
def bulanErrs (t : RawTable) : List VErr :=
  if rangeViolation (t.rows.filterMap (fun r => r.bulan)) 1 12 then
    [VErr.bulanRange] else []

/-- Lines 85-86: advisory negative-quantity check (`NaN < 0` is `False`). -/
def negWarn (t : RawTable) : List VWarn :=
  if t.rows.any (fun r => match r.qty with | some q => decide (q < 0) | none => false) then
    [VWarn.negQty] else []

/-- Lines 89-91: the fatal empty-table check. -/
def emptyErrs (t : RawTable) : List VErr :=
  if t.rows.isEmpty then [VErr.emptyDf] else []

/-- `validate_dataframe` (lines 37-93).  Missing required columns
short-circuit with `missingCols`; then, in source order: the
missing-values warning, the advisory year-range warning, the fatal
month-range error, the advisory negative-quantity warning, and the fatal
empty-table error.  `is_valid` ends up `true` exactly when no error was
appended. -/
def validate_dataframe (t : RawTable) : ValidationResult :=
  if !(t.hasTahun && t.hasBulan && t.hasItem && t.hasTotal) then
    { is_valid := false, errors := [VErr.missingCols], warnings := [] }
  else
    { is_valid := (bulanErrs t ++ emptyErrs t).isEmpty,
      errors := bulanErrs t ++ emptyErrs t,
      warnings := missingWarn t ++ tahunWarn t ++ negWarn t }

/-- A validated row with parsed integral year and month. -/
structure Row where
  tahun : Int
  bulan : Int
  item : String
  qty : Option ℚ
deriving DecidableEq, Repr

/-- The `periode` column `date(Tahun, Bulan, 1)` as a month index. -/
def periodIdx (r : Row) : Int := r.tahun * 12 + (r.bulan - 1)

def toRow (r : RawRow) : Row :=
  { tahun := (r.tahun.getD 0).num, bulan := (r.bulan.getD 0).num,
    item := r.item, qty := r.qty }

/-- Models the success of
`pd.to_datetime(df['Tahun'].astype(str) + '-' + df['Bulan'].astype(str) + '-01')`
(line 125, inside a try/except that returns `None` on failure): the parse
succeeds iff both columns are NaN-free and integer valued (a single NaN or
fractional value turns the column dtype to float, so every row stringifies
like `'2020.0'` and parsing raises) and each date is inside the
`pd.Timestamp` range (years 1677-09 .. 2262-04; the safe whole-year range
1678..2261 is used).  Months are already in `1..12` here whenever
validation passed, but the bound is kept since `to_datetime` needs it. -/
def periods_ok (rows : List RawRow) : Bool :=
  rows.all (fun r =>
    match r.tahun, r.bulan with
    | some y, some b =>
        y.den == 1 && b.den == 1 && decide (1678 ≤ y.num) && decide (y.num ≤ 2261)
          && decide (1 ≤ b.num) && decide (b.num ≤ 12)
    | _, _ => false)

/-- Insert `a` into `l`, passing every element strictly smaller under `lt`:
the insertion-sort step of a *stable* sort (equal-key elements already in
`l` come from later input positions and stay behind `a`). -/
def insBy {α : Type} (lt : α → α → Bool) (a : α) : List α → List α
  | [] => [a]
  | b :: bs => if lt b a then b :: insBy lt a bs else a :: b :: bs

/-- Stable insertion sort.  `DataFrame.sort_values` with a multi-column
`by` list always uses `numpy.lexsort`, which is stable, so the source's
sorts (lines 132 and 353) are stable sorts. -/
def isort {α : Type} (lt : α → α → Bool) : List α → List α
  | [] => []
  | a :: as => insBy lt a (isort lt as)

def rowLt (a b : Row) : Bool := decide (periodIdx a < periodIdx b)

/-- Per-product chronological sort by `periode` (stable). -/
def sortByPeriode (l : List Row) : List Row := isort rowLt l

/-- Python string `<` (codepoint-lexicographic), as used by pandas to order
the `Nama Item` object column. -/
def strLtB (a b : String) : Bool := decide (a < b)

/-- The distinct product names, ascending — the group order produced by
`sort_values(['Nama Item', 'periode'])`. -/
def itemsSorted (df : List Row) : List String :=
  isort strLtB (df.map (fun r => r.item)).dedup

/-- A row of the feature table returned by `prepare_features`: the source
columns plus `periode` and the derived features, with every undefined
(NaN) derived value already replaced by `0` (the `df.fillna(0)` of
line 166).  `qty` keeps the possibly-NaN original quantity cell;
`total_jumlah` is its filled value. -/
structure FeatRow where
  tahun : Int
  bulan : Int
  item : String
  qty : Option ℚ
  periode : Int
  total_jumlah : ℚ
  quarter : Int
  is_start_year : Int
  is_end_year : Int
  lag_1 : ℚ
  lag_2 : ℚ
  lag_3 : ℚ
  ma_3 : ℚ
  ma_6 : ℚ
  diff_1 : ℚ
deriving DecidableEq, Repr

/-- Mean of the non-NaN values inside a rolling window
(`rolling(window, min_periods=1).mean()` averages the non-null values and
is NaN — filled to `0` later — only when the window holds none). -/
def windowMean (vals : List ℚ) : ℚ :=
  if vals.isEmpty then 0 else vals.sum / (vals.length : ℚ)

/-- Features of one row `r`, given the *reversed* list of the rows that
precede it inside its product's chronologically sorted group:
`lag_k = groupby(...).shift(k)`, `ma_w = rolling(w, min_periods=1).mean()`
over the trailing window, `diff_1 = groupby(...).diff()`, with NaN results
filled to `0` (lines 133-166). -/
def mkFeatP (revPre : List Row) (r : Row) : FeatRow :=
  let l1 := (revPre.get? 0).bind (fun s => s.qty)
  let l2 := (revPre.get? 1).bind (fun s => s.qty)
  let l3 := (revPre.get? 2).bind (fun s => s.qty)
  { tahun := r.tahun, bulan := r.bulan, item := r.item, qty := r.qty,
    periode := periodIdx r,
    total_jumlah := r.qty.getD 0,
    quarter := (r.bulan - 1).ediv 3 + 1,
    is_start_year := if r.bulan = 1 then 1 else 0,
    is_end_year := if r.bulan = 12 then 1 else 0,
    lag_1 := l1.getD 0, lag_2 := l2.getD 0, lag_3 := l3.getD 0,
    ma_3 := windowMean (((r :: revPre).take 3).filterMap (fun s => s.qty)),
    ma_6 := windowMean (((r :: revPre).take 6).filterMap (fun s => s.qty)),
    diff_1 := match r.qty, l1 with
      | some a, some b => a - b
      | _, _ => 0 }

/-- Walk one sorted product group left to right, carrying the reversed
prefix of already-passed rows. -/
def featGroupAux : List Row → List Row → List FeatRow
  | _, [] => []
  | revPre, r :: rest => mkFeatP revPre r :: featGroupAux (r :: revPre) rest

/-- Feature rows of one product's chronologically sorted group. -/
def featGroup (g : List Row) : List FeatRow := featGroupAux [] g

/-- One product's rows in chronological order (ties stable, keeping input
order): the sub-sequence `groupby('Nama Item')` hands to `shift` /
`rolling` / `diff` after the stable `sort_values(['Nama Item','periode'])`. -/
def groupFor (df : List Row) (p : String) : List Row :=
  sortByPeriode (df.filter (fun r => r.item == p))

/-- The feature table built by lines 131-166: the sorted frame is the
concatenation, over products in ascending name order, of each product's
chronologically sorted group; the per-group pandas operations
(`groupby(...).shift/rolling/diff`) are `featGroup` applied group-wise. -/
def makeFeatures (df : List Row) : List FeatRow :=
  (itemsSorted df).foldr (fun p acc => featGroup (groupFor df p) ++ acc) []

/-- Forget the derived features of a feature row: the original input row. -/
def baseOf (fr : FeatRow) : Row :=
  { tahun := fr.tahun, bulan := fr.bulan, item := fr.item, qty := fr.qty }

/-- `prepare_features` (lines 96-174): `None` when validation fails
(lines 113-117) or when building the `periode` column raises
(lines 124-129); otherwise the feature table. -/
def prepare_features (t : RawTable) : Option (List FeatRow) :=
  if !(validate_dataframe t).is_valid then none
  else if !(periods_ok t.rows) then none
  else some (makeFeatures (t.rows.map toRow))

/-! ## The Forward Forecaster (`predict_future`, lines 226-364) -/

/-- The single-row feature vector handed to `model.predict` — the 11
canonical columns of lines 255-256 / 314-326. -/
structure Feat where
  Tahun : Int
  Bulan : Int
  quarter : Int
  is_start_year : Int
  is_end_year : Int
  lag_1 : ℚ
  lag_2 : ℚ
  lag_3 : ℚ
  ma_3 : ℚ
  ma_6 : ℚ
  diff_1 : ℚ
deriving DecidableEq, Repr

/-- The opaque pre-trained regressor.  `none` models `model.predict`
raising an exception (caught at lines 345-348, skipping that row). -/
def Model : Type := Feat → Option ℚ

/-- One row appended to `future_preds` (lines 337-343). -/
structure OutRow where
  item : String
  periode : Int
  pred : ℚ
  CI_lower : ℚ
  CI_upper : ℚ
deriving DecidableEq, Repr

/-- The 11 feature columns of an historical feature row, as selected at
lines 255-257 to compute the residuals. -/
def featVecOf (r : FeatRow) : Feat :=
  { Tahun := r.tahun, Bulan := r.bulan, quarter := r.quarter,
    is_start_year := r.is_start_year, is_end_year := r.is_end_year,
    lag_1 := r.lag_1, lag_2 := r.lag_2, lag_3 := r.lag_3,
    ma_3 := r.ma_3, ma_6 := r.ma_6, diff_1 := r.diff_1 }

/-- Year of a month-index period (`next_period.year`). -/
def perYear (n : Int) : Int := n.ediv 12

/-- Month of a month-index period (`next_period.month`). -/
def perMonth (n : Int) : Int := n.emod 12 + 1

/-- `df.groupby('Nama Item').tail(1)` (line 249): the last row of each
product, kept in original frame order. -/
def last_data : List FeatRow → List FeatRow
  | [] => []
  | r :: rs => if rs.any (fun s => s.item == r.item) then last_data rs else r :: last_data rs

/-- Look a prediction up in the accumulated `future_preds` by
product + period and take `['prediksi_jumlah'].iloc[0]` of the matching
rows (lines 282-286 etc.); `none` when the selection is empty. -/
def lookupPred (preds : List OutRow) (item : String) (per : Int) : Option ℚ :=
  ((preds.filter (fun o => o.item == item && o.periode == per)).head?).map (fun o => o.pred)

/-- Lag selection of one rollout step (lines 277-311), `none` when the
iteration raises before any lag is assigned.  At `i = 1` the seed's own
history is shifted forward.  At `i ≥ 2` the source first builds
`prev_pred_df = pd.DataFrame(future_preds)` (line 282): when
`future_preds` is still *empty* this frame has **no columns**, so the
column access `prev_pred_df['Nama Item']` (line 284) raises `KeyError`
inside the per-row try block and the row is skipped with no lags computed
— modelled as `none`.  With a non-empty accumulated list the step `i-1`
prediction is looked up: when present, `lag_2`/`lag_3` chain off the
`i-2` / `i-3` lookups (the source's inner `if i >= 2` test is always true
on this branch and its `else` arm is dead code; the `if i >= 3` test is
live), and when absent the source falls back to the seed's own shifted
history exactly as at `i = 1` (lines 308-311). -/
def stepLags (preds : List OutRow) (s : FeatRow) (i : Nat) : Option (ℚ × ℚ × ℚ) :=
  let per : Int := s.periode + (i : Int)
  if i = 1 then
    some (s.total_jumlah, s.lag_1, s.lag_2)
  else if preds.isEmpty then
    none
  else
    match lookupPred preds s.item (per - 1) with
    | some q1 =>
        let l2 := (lookupPred preds s.item (per - 2)).getD s.lag_1
        let l3 := if 3 ≤ i then (lookupPred preds s.item (per - 3)).getD s.lag_2
                  else s.lag_2
        some (q1, l2, l3)
    | none => some (s.total_jumlah, s.lag_1, s.lag_2)

/-- The feature dict of lines 314-326 for product seed `s` at step `i`,
given the step's computed lags: calendar features of the target period,
the lags, `ma_3` recomputed from those lags, `ma_6` frozen at the seed
row's historical value (always present and non-NaN in a prepared table,
so the `pd.isna` guard of line 324 takes its first branch), and
`diff_1 = lag_1 - lag_2`. -/
def featsOfLags (s : FeatRow) (i : Nat) (lags : ℚ × ℚ × ℚ) : Feat :=
  let per : Int := s.periode + (i : Int)
  { Tahun := perYear per, Bulan := perMonth per,
    quarter := (perMonth per - 1).ediv 3 + 1,
    is_start_year := if perMonth per = 1 then 1 else 0,
    is_end_year := if perMonth per = 12 then 1 else 0,
    lag_1 := lags.1, lag_2 := lags.2.1, lag_3 := lags.2.2,
    ma_3 := (lags.1 + lags.2.1 + lags.2.2) / 3,
    ma_6 := s.ma_6,
    diff_1 := lags.1 - lags.2.1 }

/-- The feature vector handed to the model at one rollout iteration
(lines 274-326), or `none` when the lag lookup raised (empty
`future_preds` at `i ≥ 2`) and the iteration was skipped before
`model.predict` was ever invoked. -/
def stepFeats (preds : List OutRow) (s : FeatRow) (i : Nat) : Option Feat :=
  (stepLags preds s i).map (featsOfLags s i)

/-- The z-multiplier `1.96` of the 95% band. -/
def zCI : ℚ := 49 / 25

/-- Build the forecast row recorded at lines 330-343 from the raw model
output: the prediction is clamped to `≥ 0`, then
`CI_lower = max(pred - 1.96·σ, 0)` and `CI_upper = pred + 1.96·σ`,
where `σ` is the run's `std_pred`. -/
def mkOut (σ : ℚ) (s : FeatRow) (i : Nat) (raw : ℚ) : OutRow :=
  let pred := max raw 0
  { item := s.item, periode := s.periode + (i : Int), pred := pred,
    CI_lower := max (pred - zCI * σ) 0,
    CI_upper := pred + zCI * σ }

/-- Execution record of one `(step, seed)` iteration of the rollout: the
accumulated predictions it saw, the feature vector it built (`none` when
the lag lookup raised `KeyError` on the empty prediction frame and the
row was skipped before the model was invoked), and its outcome (`none`
when the iteration produced no row — lag-lookup `KeyError` or the model
raising). -/
structure StepRec where
  seed : FeatRow
  step : Nat
  predsBefore : List OutRow
  feats : Option Feat
  out : Option OutRow
deriving DecidableEq, Repr

/-- One iteration of the per-row try block (lines 273-348): build the
features (which can itself raise, see `stepLags`), and only when that
succeeded invoke the model; either failure is caught and yields no row. -/
def runStep (m : Model) (σ : ℚ) (preds : List OutRow) (s : FeatRow) (i : Nat) : StepRec :=
  let f := stepFeats preds s i
  { seed := s, step := i, predsBefore := preds, feats := f,
    out := f.bind (fun fv => (m fv).map (mkOut σ s i)) }

/-- `future_preds` after recording `e`: appended on success, unchanged when
the row was skipped. -/
def nextPreds (preds : List OutRow) (e : StepRec) : List OutRow :=
  match e.out with
  | some o => preds ++ [o]
  | none => preds

/-- The inner `for _, row in last_data.iterrows()` loop at one step `i`
(lines 272-348): returns the iteration records and the accumulated
predictions after the pass. -/
def innerPass (m : Model) (σ : ℚ) (i : Nat) :
    List FeatRow → List OutRow → List StepRec × List OutRow
  | [], preds => ([], preds)
  | s :: rest, preds =>
    let e := runStep m σ preds s i
    let res := innerPass m σ i rest (nextPreds preds e)
    (e :: res.1, res.2)

/-- The outer `for i in range(1, months + 1)` loop (line 271): `n` steps
remain, the next step index is `i`. -/
def outerLoop (m : Model) (σ : ℚ) (seeds : List FeatRow) :
    Nat → Nat → List OutRow → List StepRec
  | _, 0, _ => []
  | i, Nat.succ n, preds =>
    let res := innerPass m σ i seeds preds
    res.1 ++ outerLoop m σ seeds (i + 1) n res.2

/-- Full execution trace of the rollout of `predict_future` over the seeds
`last_data df`. -/
def rolloutTrace (df : List FeatRow) (m : Model) (σ : ℚ) (months : Nat) : List StepRec :=
  outerLoop m σ (last_data df) 1 months []

/-- The `future_preds` list at the end of the rollout: the successful rows,
in production order. -/
def rolloutRows (df : List FeatRow) (m : Model) (σ : ℚ) (months : Nat) : List OutRow :=
  (rolloutTrace df m σ months).filterMap (fun e => e.out)

/-- Lexicographic key order of the final
`sort_values(by=['Nama Item', 'periode'])` (line 353). -/
def outLt (a b : OutRow) : Bool :=
  strLtB a.item b.item || (a.item == b.item && decide (a.periode < b.periode))

def sortOut (l : List OutRow) : List OutRow := isort outLt l

/-- `predict_future` (lines 226-364), with the run's residual standard
deviation `std_pred` passed as the parameter `σ`.  `std_pred` is computed
once, before the rollout (lines 251-267), as the sample standard deviation
of `residualsOf df m` — a square root that is irrational in general, hence
kept as a parameter here; `sampleVar` below embeds the squared value.
`None` when `months` is outside `1..12` (lines 245-247) or when no
prediction succeeded (lines 350-359, `"Tidak ada prediksi yang berhasil
dibuat"`); otherwise the successful rows sorted by product and period.
(The constant `confidence_level = '95%'` column of line 352 carries no
information and is not modelled.) -/
def predict_future (df : List FeatRow) (m : Model) (σ : ℚ) (months : Nat) : Option (List OutRow) :=
  if months == 0 || decide (12 < months) then none
  else
    let rows := rolloutRows df m σ months
    if rows.isEmpty then none else some (sortOut rows)

/-- The residuals `y_current - model.predict(X_current)` over the cleaned
historical table (lines 253-260; a prepared feature table has no NaN left,
so `df.dropna()` drops nothing).  `none` when the batch prediction raises,
in which case the source warns and uses `std_pred = 0`. -/
def residualsOf (df : List FeatRow) (m : Model) : Option (List ℚ) :=
  df.mapM (fun r => (m (featVecOf r)).map (fun p => r.total_jumlah - p))

def listMean (l : List ℚ) : ℚ := l.sum / (l.length : ℚ)

/-- The square of `pd.Series.std()` (ddof = 1): `std_pred = sqrt` of this.
(On fewer than two residuals pandas yields NaN; that degenerate case is
not modelled.) -/
def sampleVar (l : List ℚ) : ℚ :=
  if l.length ≤ 1 then 0
  else (l.map (fun x => (x - listMean l) ^ 2)).sum / ((l.length : ℚ) - 1)

/-! ## Keys of rollout iterations, for the failure-tolerance claims -/

/-- The `(product, target period)` key of one rollout iteration; the target
period `seed.periode + step` determines the step and vice versa. -/
def entryKey (e : StepRec) : String × Int := (e.seed.item, e.seed.periode + (e.step : Int))

def outKey (r : OutRow) : String × Int := (r.item, r.periode)

def outKeysOf (l : List OutRow) : List (String × Int) := l.map outKey

def traceKeys (T : List StepRec) : List (String × Int) := T.map entryKey

/-- Keys of the iterations whose model invocation raised. -/
def failKeys (T : List StepRec) : List (String × Int) :=
  (T.filter (fun e => e.out.isNone)).map entryKey

/-- All `(product, period)` combinations attempted from step `i` for `n`
further steps. -/
def combosFrom (seeds : List FeatRow) : Nat → Nat → List (String × Int)
  | _, 0 => []
  | i, Nat.succ n =>
    seeds.map (fun s => (s.item, s.periode + (i : Int))) ++ combosFrom seeds (i + 1) n

/-- All `(product, period)` combinations of a rollout of `months` steps. -/
def combos (seeds : List FeatRow) (months : Nat) : List (String × Int) :=
  combosFrom seeds 1 months

/-- Remove every row of product `B` from a raw table. -/
def dropItemRaw (t : RawTable) (B : String) : RawTable :=
  { t with rows := t.rows.filter (fun r => !(r.item == B)) }

/-! ## Concrete instances used by witnesses and counterexamples -/

def rrow (y mo : ℚ) (p : String) (q : ℚ) : RawRow :=
  { tahun := some y, bulan := some mo, item := p, qty := some q }

def tW3 : RawTable :=
  { hasTahun := true, hasBulan := true, hasItem := true, hasTotal := true,
    rows := [rrow 2024 1 "A" 5, rrow 2024 2 "A" 8] }

def ftW3 : List FeatRow := makeFeatures (tW3.rows.map toRow)

def frW3 : FeatRow :=
  { tahun := 2024, bulan := 1, item := "A", qty := some 5, periode := 24288,
    total_jumlah := 5, quarter := 1, is_start_year := 1, is_end_year := 0,
    lag_1 := 0, lag_2 := 0, lag_3 := 0, ma_3 := 5, ma_6 := 5, diff_1 := 0 }

def tW4 : RawTable :=
  { hasTahun := true, hasBulan := true, hasItem := true, hasTotal := true,
    rows := [rrow 2024 1 "A" 5, rrow 2024 1 "B" 9, rrow 2024 2 "A" 6] }

def ftW4 : List FeatRow := makeFeatures (tW4.rows.map toRow)

def ftW4B : List FeatRow := makeFeatures ((dropItemRaw tW4 "B").rows.map toRow)

def tW9 : RawTable :=
  { hasTahun := true, hasBulan := true, hasItem := true, hasTotal := true,
    rows := [rrow 2024 1 "A" 5, rrow 2024 1 "A" 7] }

def ftW9 : List FeatRow := makeFeatures (tW9.rows.map toRow)

def tW6bad : RawTable :=
  { hasTahun := true, hasBulan := true, hasItem := true, hasTotal := true,
    rows := [rrow 2024 0 "A" 5] }

def tW6warn : RawTable :=
  { hasTahun := true, hasBulan := true, hasItem := true, hasTotal := true,
    rows := [{ tahun := some 1800, bulan := some 1, item := "A", qty := some (-2) },
             { tahun := some 2024, bulan := some 2, item := "A", qty := none }] }

def tW10 : RawTable :=
  { hasTahun := true, hasBulan := true, hasItem := true, hasTotal := true,
    rows := [{ tahun := some 2024, bulan := none, item := "A", qty := some 5 }] }

def seedA : FeatRow :=
  { tahun := 2024, bulan := 1, item := "A", qty := some 5, periode := 24288,
    total_jumlah := 5, quarter := 1, is_start_year := 1, is_end_year := 0,
    lag_1 := 4, lag_2 := 3, lag_3 := 2, ma_3 := 4, ma_6 := 3, diff_1 := 1 }

def seedB : FeatRow :=
  { tahun := 2024, bulan := 1, item := "B", qty := some 7, periode := 24288,
    total_jumlah := 7, quarter := 1, is_start_year := 1, is_end_year := 0,
    lag_1 := 6, lag_2 := 5, lag_3 := 4, ma_3 := 6, ma_6 := 5, diff_1 := 1 }

/-- Seed for the lag-fallback counterexample: product "B" with quantity
100 and `lag_1 = 90`. -/
def seedX1 : FeatRow :=
  { tahun := 2024, bulan := 1, item := "B", qty := some 100, periode := 24288,
    total_jumlah := 100, quarter := 1, is_start_year := 1, is_end_year := 0,
    lag_1 := 90, lag_2 := 80, lag_3 := 70, ma_3 := 90, ma_6 := 85, diff_1 := 10 }

/-- A model that raises exactly on `seedX1`'s step-1 feature vector
(target month February, `lag_1 = 100`) and predicts 7 elsewhere; in the
rollout over `[seedA, seedX1]` every other iteration succeeds, so at step
2 the accumulated prediction set is non-empty (product "A"'s rows) but
holds no step-1 prediction for product "B" — the genuine fallback path of
lines 308-311. -/
def mX1 : Model := fun f => if f.Bulan == 2 && f.lag_1 == 100 then none else some 7

/-- Historical table whose residuals under the constant-1 model `mX2` are
`[0, 1, -1]`, so `std_pred = sqrt(sampleVar) = 1` exactly. -/
def dfX2 : List FeatRow :=
  makeFeatures [{ tahun := 2024, bulan := 1, item := "A", qty := some 1 },
                { tahun := 2024, bulan := 2, item := "A", qty := some 2 },
                { tahun := 2024, bulan := 3, item := "A", qty := some 0 }]

def mX2 : Model := fun _ => some 1

def outX2 : OutRow :=
  { item := "A", periode := 24291, pred := 1, CI_lower := 0, CI_upper := 74 / 25 }

def mW1 : Model := fun _ => some 3

def oW1 : OutRow := mkOut 0 seedA 1 3

/-- The step-2 iteration record of the rollout of `mW1` over `[seedA]`. -/
def eW1 : StepRec := runStep mW1 0 [oW1] seedA 2

def eW8 : StepRec := runStep mW1 0 [] seedA 1

def mW5 : Model := fun _ => some (-3)

def outW5 : OutRow := { item := "A", periode := 24289, pred := 0, CI_lower := 0, CI_upper := 49 / 25 }

def mW2 : Model := fun _ => some 4

def outW2 : OutRow := { item := "A", periode := 24289, pred := 4, CI_lower := 4, CI_upper := 4 }

/-- A model that raises exactly on the `(B, step 1)` iteration of the
two-product rollout below, and predicts 3 everywhere else. -/
def mW7 : Model := fun f => if f.lag_1 == 7 && f.Bulan == 2 then none else some 3

def outW7 : List OutRow :=
  [{ item := "A", periode := 24289, pred := 3, CI_lower := 3, CI_upper := 3 },
   { item := "A", periode := 24290, pred := 3, CI_lower := 3, CI_upper := 3 },
   { item := "B", periode := 24290, pred := 3, CI_lower := 3, CI_upper := 3 }]

/-! ## Generic lemmas about the stable insertion sort -/

theorem insBy_perm {α : Type} (lt : α → α → Bool) (a : α) (l : List α) :
    (insBy lt a l).Perm (a :: l) := by
  induction l with
  | nil => simp [insBy]
  | cons b bs ih =>
    simp only [insBy]
    by_cases h : lt b a = true
    · simp only [h, if_true]
      exact (ih.cons b).trans (List.Perm.swap a b bs)
    · simp [h]

theorem isort_perm {α : Type} (lt : α → α → Bool) (l : List α) :
    (isort lt l).Perm l := by
  induction l with
  | nil => simp [isort]
  | cons a as ih =>
    simp only [isort]
    exact (insBy_perm lt a (isort lt as)).trans (ih.cons a)

theorem mem_isort {α : Type} (lt : α → α → Bool) (l : List α) (x : α) :
    x ∈ isort lt l ↔ x ∈ l :=
  (isort_perm lt l).mem_iff

theorem filter_insBy_pos {α : Type} (lt : α → α → Bool) (P : α → Bool) (a : α)
    (l : List α) (ha : P a = true) (h : ∀ b, P b = true → lt b a = false) :
    (insBy lt a l).filter P = a :: l.filter P := by
  induction l with
  | nil => simp [insBy, ha]
  | cons b bs ih =>
    simp only [insBy]
    by_cases hb : lt b a = true
    · have hPb : P b = false := by
        by_contra hc
        have := h b (by revert hc; cases P b <;> simp)
        rw [this] at hb; exact Bool.noConfusion hb
      simp [hb, List.filter_cons, hPb, ih]
    · simp [hb, List.filter_cons, ha]

theorem filter_insBy_neg {α : Type} (lt : α → α → Bool) (P : α → Bool) (a : α)
    (l : List α) (ha : P a = false) :
    (insBy lt a l).filter P = l.filter P := by
  induction l with
  | nil => simp [insBy, ha]
  | cons b bs ih =>
    simp only [insBy]
    by_cases hb : lt b a = true
    · simp [hb, List.filter_cons, ih]
    · simp [hb, List.filter_cons, ha]

/-- Stability of the insertion sort, in the form the tie-ordering claim
needs: a filter that only keeps mutually `lt`-incomparable elements (for
instance all rows of one key value) is unchanged by sorting. -/
theorem filter_isort {α : Type} (lt : α → α → Bool) (P : α → Bool) (l : List α)
    (h : ∀ a b, P a = true → P b = true → lt b a = false) :
    (isort lt l).filter P = l.filter P := by
  induction l with
  | nil => simp [isort]
  | cons a as ih =>
    simp only [isort]
    by_cases ha : P a = true
    · rw [filter_insBy_pos lt P a (isort lt as) ha (fun b hb => h a b ha hb),
        List.filter_cons, ha, ih]
      simp
    · rw [filter_insBy_neg lt P a (isort lt as) (by revert ha; cases P a <;> simp),
        List.filter_cons, ih]
      simp [ha]

/-! ## Lemmas about the Feature Builder -/

theorem baseOf_mkFeatP (revPre : List Row) (r : Row) : baseOf (mkFeatP revPre r) = r := rfl

theorem item_mkFeatP (revPre : List Row) (r : Row) : (mkFeatP revPre r).item = r.item := rfl

theorem periode_mkFeatP (revPre : List Row) (r : Row) :
    (mkFeatP revPre r).periode = periodIdx r := rfl

theorem featGroupAux_map_item (revPre g : List Row) :
    (featGroupAux revPre g).map (fun fr => fr.item) = g.map (fun r => r.item) := by
  induction g generalizing revPre with
  | nil => simp [featGroupAux]
  | cons r rest ih => simp [featGroupAux, item_mkFeatP, ih]

theorem item_of_mem_featGroup (g : List Row) (fr : FeatRow) (hfr : fr ∈ featGroup g) :
    fr.item ∈ g.map (fun r => r.item) := by
  have : fr.item ∈ (featGroupAux [] g).map (fun fr => fr.item) :=
    List.mem_map_of_mem _ hfr
  rwa [featGroupAux_map_item] at this

theorem item_of_mem_groupFor (df : List Row) (p : String) (r : Row)
    (hr : r ∈ groupFor df p) : r.item = p := by
  have hr2 : r ∈ df.filter (fun s => s.item == p) := by
    have := (mem_isort rowLt (df.filter (fun s => s.item == p)) r).mp hr
    exact this
  have := List.of_mem_filter hr2
  exact eq_of_beq this

theorem item_of_mem_featGroup_groupFor (df : List Row) (p : String) (fr : FeatRow)
    (hfr : fr ∈ featGroup (groupFor df p)) : fr.item = p := by
  have h1 := item_of_mem_featGroup _ fr hfr
  obtain ⟨r, hr, hEq⟩ := List.mem_map.mp h1
  rw [← hEq]
  exact item_of_mem_groupFor df p r hr

theorem itemsSorted_nodup (df : List Row) : (itemsSorted df).Nodup := by
  rw [itemsSorted]
  exact (isort_perm strLtB _).nodup_iff.mpr (List.nodup_dedup _)

theorem mem_itemsSorted (df : List Row) (p : String) :
    p ∈ itemsSorted df ↔ p ∈ df.map (fun r => r.item) := by
  rw [itemsSorted, mem_isort, List.mem_dedup]

theorem filter_item_foldr (df : List Row) (p : String) (l : List String)
    (hl : l.Nodup) :
    (l.foldr (fun x acc => featGroup (groupFor df x) ++ acc) []).filter
        (fun fr => fr.item == p) =
      if p ∈ l then featGroup (groupFor df p) else [] := by
  induction l with
  | nil => simp
  | cons x xs ih =>
    have hx : x ∉ xs := (List.nodup_cons.mp hl).1
    have ihx := ih (List.nodup_cons.mp hl).2
    simp only [List.foldr_cons, List.filter_append, ihx]
    by_cases hxp : x = p
    · subst hxp
      have hself : (featGroup (groupFor df x)).filter (fun fr => fr.item == x) =
          featGroup (groupFor df x) := by
        apply List.filter_eq_self.mpr
        intro fr hfr
        exact beq_iff_eq.mpr (item_of_mem_featGroup_groupFor df x fr hfr)
      simp [hself, hx]
    · have hnone : (featGroup (groupFor df x)).filter (fun fr => fr.item == p) = [] := by
        apply List.filter_eq_nil_iff.mpr
        intro fr hfr
        have := item_of_mem_featGroup_groupFor df x fr hfr
        simp [this, hxp]
      rw [hnone]
      have hpx : ¬ p = x := fun h => hxp h.symm
      simp [List.mem_cons, hpx]

/-- Selecting one product's rows out of the whole feature table yields
exactly that product's per-group features. -/
theorem makeFeatures_filter_item (df : List Row) (p : String) :
    (makeFeatures df).filter (fun fr => fr.item == p) = featGroup (groupFor df p) := by
  rw [makeFeatures, filter_item_foldr df p _ (itemsSorted_nodup df)]
  by_cases hp : p ∈ itemsSorted df
  · simp [hp]
  · have hnorow : df.filter (fun r => r.item == p) = [] := by
      apply List.filter_eq_nil_iff.mpr
      intro r hr hbeq
      exact hp ((mem_itemsSorted df p).mpr
        (List.mem_map.mpr ⟨r, hr, eq_of_beq hbeq⟩))
    simp [hp, groupFor, hnorow, sortByPeriode, isort, featGroup, featGroupAux]

/-- Filtering a per-group feature list by period and projecting back to the
input rows recovers the period's input rows, in order. -/
theorem featGroupAux_filter_periode (per : Int) (g revPre : List Row) :
    ((featGroupAux revPre g).filter (fun fr => fr.periode == per)).map baseOf =
      g.filter (fun r => periodIdx r == per) := by
  induction g generalizing revPre with
  | nil => simp [featGroupAux]
  | cons r rest ih =>
    simp only [featGroupAux, List.filter_cons, periode_mkFeatP]
    by_cases hper : (periodIdx r == per) = true
    · simp [hper, baseOf_mkFeatP, ih]
    · simp only [hper]
      simp only [Bool.false_eq_true, if_false] at *
      exact ih (r :: revPre)

/-- The head of a per-group feature list is the group's first row with the
cold-start feature values. -/
theorem featGroup_head (g : List Row) (fr : FeatRow)
    (h : (featGroup g).head? = some fr) :
    fr.lag_1 = 0 ∧ fr.lag_2 = 0 ∧ fr.lag_3 = 0 ∧ fr.diff_1 = 0 ∧
      fr.ma_3 = fr.total_jumlah ∧ fr.ma_6 = fr.total_jumlah := by
  cases g with
  | nil => simp [featGroup, featGroupAux] at h
  | cons r rest =>
    simp only [featGroup, featGroupAux, List.head?_cons, Option.some.injEq] at h
    subst h
    cases hq : r.qty with
    | none =>
      refine ⟨rfl, rfl, rfl, ?_, ?_, ?_⟩ <;>
        simp [mkFeatP, hq, windowMean]
    | some q =>
      refine ⟨rfl, rfl, rfl, ?_, ?_, ?_⟩ <;>
        simp [mkFeatP, hq, windowMean]

/-! ## Lemmas about `validate_dataframe` -/

theorem foldl_min_spec (ys : List ℚ) (x : ℚ) :
    ys.foldl min x ∈ x :: ys ∧ ys.foldl min x ≤ x ∧ ∀ b ∈ ys, ys.foldl min x ≤ b := by
  induction ys generalizing x with
  | nil => simp
  | cons y ys ih =>
    obtain ⟨hmem, hinit, hle⟩ := ih (min x y)
    have hfold : (y :: ys).foldl min x = ys.foldl min (min x y) := by
      simp [List.foldl_cons]
    rw [hfold]
    refine ⟨?_, ?_, ?_⟩
    · rw [List.mem_cons] at hmem
      rcases hmem with hm | hm
      · rw [hm]
        rcases le_total x y with hxy | hyx
        · rw [min_eq_left hxy]
          exact List.mem_cons.mpr (Or.inl rfl)
        · rw [min_eq_right hyx]
          exact List.mem_cons.mpr (Or.inr (List.mem_cons.mpr (Or.inl rfl)))
      · exact List.mem_cons.mpr (Or.inr (List.mem_cons.mpr (Or.inr hm)))
    · exact le_trans hinit (min_le_left _ _)
    · intro b hb
      rw [List.mem_cons] at hb
      rcases hb with hb | hb
      · subst hb
        exact le_trans hinit (min_le_right _ _)
      · exact hle b hb

theorem foldl_max_spec (ys : List ℚ) (x : ℚ) :
    ys.foldl max x ∈ x :: ys ∧ x ≤ ys.foldl max x ∧ ∀ b ∈ ys, b ≤ ys.foldl max x := by
  induction ys generalizing x with
  | nil => simp
  | cons y ys ih =>
    obtain ⟨hmem, hinit, hle⟩ := ih (max x y)
    have hfold : (y :: ys).foldl max x = ys.foldl max (max x y) := by
      simp [List.foldl_cons]
    rw [hfold]
    refine ⟨?_, ?_, ?_⟩
    · rw [List.mem_cons] at hmem
      rcases hmem with hm | hm
      · rw [hm]
        rcases le_total x y with hxy | hyx
        · rw [max_eq_right hxy]
          exact List.mem_cons.mpr (Or.inr (List.mem_cons.mpr (Or.inl rfl)))
        · rw [max_eq_left hyx]
          exact List.mem_cons.mpr (Or.inl rfl)
      · exact List.mem_cons.mpr (Or.inr (List.mem_cons.mpr (Or.inr hm)))
    · exact le_trans (le_max_left _ _) hinit
    · intro b hb
      rw [List.mem_cons] at hb
      rcases hb with hb | hb
      · subst hb
        exact le_trans (le_max_right _ _) hinit
      · exact hle b hb

theorem colMin_spec (l : List ℚ) (a : ℚ) (h : colMin l = some a) :
    a ∈ l ∧ ∀ b ∈ l, a ≤ b := by
  cases l with
  | nil => simp [colMin] at h
  | cons x xs =>
    simp only [colMin, Option.some.injEq] at h
    subst h
    obtain ⟨hmem, hinit, hle⟩ := foldl_min_spec xs x
    refine ⟨hmem, ?_⟩
    intro b hb
    rw [List.mem_cons] at hb
    rcases hb with hb | hb
    · subst hb
      exact hinit
    · exact hle b hb

theorem colMax_spec (l : List ℚ) (a : ℚ) (h : colMax l = some a) :
    a ∈ l ∧ ∀ b ∈ l, b ≤ a := by
  cases l with
  | nil => simp [colMax] at h
  | cons x xs =>
    simp only [colMax, Option.some.injEq] at h
    subst h
    obtain ⟨hmem, hinit, hle⟩ := foldl_max_spec xs x
    refine ⟨hmem, ?_⟩
    intro b hb
    rw [List.mem_cons] at hb
    rcases hb with hb | hb
    · subst hb
      exact hinit
    · exact hle b hb

/-- The NaN-skipping range test fires exactly when some parsed value is
out of range. -/
theorem rangeViolation_iff (vals : List ℚ) (lo hi : ℚ) :
    rangeViolation vals lo hi = true ↔ ∃ v ∈ vals, v < lo ∨ hi < v := by
  constructor
  · intro h
    rw [rangeViolation] at h
    cases hmin : colMin vals with
    | none =>
      cases vals with
      | nil => simp [colMin] at hmin; simp [colMin, colMax] at h
      | cons x xs => simp [colMin] at hmin
    | some a =>
      cases hmax : colMax vals with
      | none =>
        cases vals with
        | nil => simp [colMin] at hmin
        | cons x xs => simp [colMax] at hmax
      | some b =>
        rw [hmin, hmax] at h
        simp only [Bool.or_eq_true, decide_eq_true_eq] at h
        rcases h with h | h
        · exact ⟨a, (colMin_spec vals a hmin).1, Or.inl h⟩
        · exact ⟨b, (colMax_spec vals b hmax).1, Or.inr h⟩
  · rintro ⟨v, hv, hout⟩
    rw [rangeViolation]
    cases vals with
    | nil => simp at hv
    | cons x xs =>
      cases hmin : colMin (x :: xs) with
      | none => simp [colMin] at hmin
      | some a =>
        cases hmax : colMax (x :: xs) with
        | none => simp [colMax] at hmax
        | some b =>
          simp only [Bool.or_eq_true, decide_eq_true_eq]
          rcases hout with hout | hout
          · exact Or.inl (lt_of_le_of_lt ((colMin_spec _ a hmin).2 v hv) hout)
          · exact Or.inr (lt_of_lt_of_le hout ((colMax_spec _ b hmax).2 v hv))

/-! ## Lemmas about the Forward Forecaster -/

theorem prepare_features_some (t : RawTable) (ft : List FeatRow)
    (h : prepare_features t = some ft) :
    ft = makeFeatures (t.rows.map toRow) ∧ (validate_dataframe t).is_valid = true ∧
      periods_ok t.rows = true := by
  rw [prepare_features] at h
  cases hv : (validate_dataframe t).is_valid with
  | false => rw [hv] at h; simp at h
  | true =>
    rw [hv] at h
    cases hp : periods_ok t.rows with
    | false => rw [hp] at h; simp at h
    | true =>
      rw [hp] at h
      simp only [Bool.not_true, Bool.false_eq_true, if_false, Option.some.injEq] at h
      exact ⟨h.symm, rfl, rfl⟩

theorem innerPass_fst_keys (m : Model) (σ : ℚ) (i : Nat) (seeds : List FeatRow) :
    ∀ preds, ((innerPass m σ i seeds preds).1).map entryKey
      = seeds.map (fun s => (s.item, s.periode + (i : Int))) := by
  induction seeds with
  | nil => intro preds; simp [innerPass]
  | cons s rest ih =>
    intro preds
    simp [innerPass, runStep, entryKey, ih]

theorem outerLoop_keys (m : Model) (σ : ℚ) (seeds : List FeatRow) (n : Nat) :
    ∀ i preds, (outerLoop m σ seeds i n preds).map entryKey = combosFrom seeds i n := by
  induction n with
  | zero => intro i preds; simp [outerLoop, combosFrom]
  | succ n ih =>
    intro i preds
    simp [outerLoop, combosFrom, innerPass_fst_keys, ih]

theorem mem_innerPass (m : Model) (σ : ℚ) (i : Nat) (seeds : List FeatRow) :
    ∀ preds e, e ∈ (innerPass m σ i seeds preds).1 →
      e.feats = stepFeats e.predsBefore e.seed e.step ∧
      e.out = e.feats.bind (fun fv => (m fv).map (mkOut σ e.seed e.step)) ∧
      e.step = i ∧ e.seed ∈ seeds := by
  induction seeds with
  | nil => intro preds e he; simp [innerPass] at he
  | cons s rest ih =>
    intro preds e he
    simp only [innerPass, List.mem_cons] at he
    rcases he with he | he
    · subst he
      exact ⟨rfl, rfl, rfl, List.mem_cons.mpr (Or.inl rfl)⟩
    · obtain ⟨h1, h2, h3, h4⟩ := ih _ e he
      exact ⟨h1, h2, h3, List.mem_cons.mpr (Or.inr h4)⟩

theorem mem_outerLoop (m : Model) (σ : ℚ) (seeds : List FeatRow) (n : Nat) :
    ∀ i preds e, e ∈ outerLoop m σ seeds i n preds →
      e.feats = stepFeats e.predsBefore e.seed e.step ∧
      e.out = e.feats.bind (fun fv => (m fv).map (mkOut σ e.seed e.step)) ∧
      e.seed ∈ seeds := by
  induction n with
  | zero => intro i preds e he; simp [outerLoop] at he
  | succ n ih =>
    intro i preds e he
    simp only [outerLoop, List.mem_append] at he
    rcases he with he | he
    · obtain ⟨h1, h2, h3, h4⟩ := mem_innerPass m σ i seeds preds e he
      exact ⟨h1, h2, h4⟩
    · exact ih _ _ e he

/-- Every recorded rollout iteration built its features with `stepFeats`
from the predictions accumulated before it, its outcome is the clamped
model output when the feature construction succeeded (and nothing
otherwise), and its seed is one of the per-product last rows. -/
theorem trace_spec (df : List FeatRow) (m : Model) (σ : ℚ) (months : Nat) (e : StepRec)
    (he : e ∈ rolloutTrace df m σ months) :
    e.feats = stepFeats e.predsBefore e.seed e.step ∧
    e.out = e.feats.bind (fun fv => (m fv).map (mkOut σ e.seed e.step)) ∧
    e.seed ∈ last_data df :=
  mem_outerLoop m σ (last_data df) months 1 [] e he

theorem mem_last_data (df : List FeatRow) (s : FeatRow) (h : s ∈ last_data df) : s ∈ df := by
  induction df with
  | nil => simp [last_data] at h
  | cons r rs ih =>
    simp only [last_data] at h
    by_cases hc : rs.any (fun x => x.item == r.item) = true
    · rw [if_pos hc] at h
      exact List.mem_cons.mpr (Or.inr (ih h))
    · rw [if_neg hc] at h
      rcases List.mem_cons.mp h with h | h
      · exact List.mem_cons.mpr (Or.inl h)
      · exact List.mem_cons.mpr (Or.inr (ih h))

/-- `groupby(...).tail(1)` yields one row per product: the seed items are
pairwise distinct. -/
theorem last_data_items_nodup (df : List FeatRow) :
    ((last_data df).map (fun r => r.item)).Nodup := by
  induction df with
  | nil => simp [last_data]
  | cons r rs ih =>
    simp only [last_data]
    by_cases hc : rs.any (fun x => x.item == r.item) = true
    · rw [if_pos hc]; exact ih
    · rw [if_neg hc]
      simp only [List.map_cons, List.nodup_cons]
      refine ⟨?_, ih⟩
      intro hmem
      obtain ⟨x, hx, hEq⟩ := List.mem_map.mp hmem
      have hx2 := mem_last_data rs x hx
      exact hc (List.any_eq_true.mpr ⟨x, hx2, beq_iff_eq.mpr hEq⟩)

theorem mem_combosFrom_shape (seeds : List FeatRow) (n : Nat) :
    ∀ i k, k ∈ combosFrom seeds i n →
      ∃ s ∈ seeds, ∃ j : Nat, i ≤ j ∧ k = (s.item, s.periode + (j : Int)) := by
  induction n with
  | zero => intro i k h; simp [combosFrom] at h
  | succ n ih =>
    intro i k h
    simp only [combosFrom, List.mem_append] at h
    rcases h with h | h
    · obtain ⟨s, hs, hEq⟩ := List.mem_map.mp h
      exact ⟨s, hs, i, le_refl i, hEq.symm⟩
    · obtain ⟨s, hs, j, hj, hEq⟩ := ih (i + 1) k h
      exact ⟨s, hs, j, by omega, hEq⟩

theorem combosFrom_nodup (seeds : List FeatRow)
    (h : (seeds.map (fun s => s.item)).Nodup) (n : Nat) :
    ∀ i, (combosFrom seeds i n).Nodup := by
  induction n with
  | zero => intro i; simp [combosFrom]
  | succ n ih =>
    intro i
    simp only [combosFrom]
    rw [List.nodup_append]
    refine ⟨?_, ih (i + 1), ?_⟩
    · have hmm : ((seeds.map (fun s => (s.item, s.periode + (i : Int)))).map Prod.fst).Nodup := by
        rw [List.map_map]
        exact h
      exact hmm.of_map Prod.fst
    · intro k hk1 hk2
      obtain ⟨s, hs, hEq⟩ := List.mem_map.mp hk1
      obtain ⟨s2, hs2, j, hj, hEq2⟩ := mem_combosFrom_shape seeds n (i + 1) k hk2
      rw [← hEq] at hEq2
      have hitem : s.item = s2.item := congrArg Prod.fst hEq2
      have hsame : s = s2 := List.inj_on_of_nodup_map h hs hs2 hitem
      have hper : s.periode + (i : Int) = s2.periode + (j : Int) := congrArg Prod.snd hEq2
      rw [← hsame] at hper
      omega

theorem filterMap_out_keys (T : List StepRec)
    (h : ∀ e ∈ T, ∀ o, e.out = some o → outKey o = entryKey e) :
    (T.filterMap (fun e => e.out)).map outKey =
      (T.filter (fun e => e.out.isSome)).map entryKey := by
  induction T with
  | nil => simp
  | cons e T ih =>
    have hT : ∀ x ∈ T, ∀ o, x.out = some o → outKey o = entryKey x :=
      fun x hx => h x (List.mem_cons.mpr (Or.inr hx))
    cases ho : e.out with
    | none => simp [List.filterMap_cons, List.filter_cons, ho, ih hT]
    | some o =>
      have hk := h e (List.mem_cons.mpr (Or.inl rfl)) o ho
      simp [List.filterMap_cons, List.filter_cons, ho, ih hT, hk]

theorem filter_map_mem_iff {α κ : Type} (f : α → κ) (p : α → Bool) (T : List α)
    (hT : (T.map f).Nodup) (k : κ) :
    k ∈ (T.filter p).map f ↔ (k ∈ T.map f ∧ k ∉ (T.filter (fun e => !(p e))).map f) := by
  induction T with
  | nil => simp
  | cons e T ih =>
    rw [List.map_cons, List.nodup_cons] at hT
    obtain ⟨hfe, hTe⟩ := hT
    have hsub : ∀ (q : α → Bool), f e ∉ (T.filter q).map f := by
      intro q hmem
      obtain ⟨x, hx, hEq⟩ := List.mem_map.mp hmem
      exact hfe (List.mem_map.mpr ⟨x, List.mem_of_mem_filter hx, hEq⟩)
    by_cases hp : p e = true
    · have hnp : (!(p e)) = false := by simp [hp]
      simp only [List.filter_cons, hp, if_true, hnp, Bool.false_eq_true, if_false,
        List.map_cons, List.mem_cons]
      by_cases hk : k = f e
      · subst hk
        simp [hsub p, hsub (fun e => !(p e))]
      · simp only [hk, false_or]
        exact ih hTe
    · have hp2 : p e = false := by revert hp; cases p e <;> simp
      simp only [List.filter_cons, hp2, Bool.false_eq_true, if_false, Bool.not_false,
        if_true, List.map_cons, List.mem_cons]
      by_cases hk : k = f e
      · subst hk
        constructor
        · intro hmem
          exact absurd hmem (hsub p)
        · rintro ⟨_, hnot⟩
          exact absurd (Or.inl rfl) hnot
      · simp only [hk, false_or]
        exact ih hTe

theorem predict_future_some (df : List FeatRow) (m : Model) (σ : ℚ) (months : Nat)
    (out : List OutRow) (h : predict_future df m σ months = some out) :
    out = sortOut (rolloutRows df m σ months) := by
  rw [predict_future] at h
  by_cases h1 : (months == 0 || decide (12 < months)) = true
  · rw [if_pos h1] at h
    simp at h
  · rw [if_neg h1] at h
    by_cases h2 : (rolloutRows df m σ months).isEmpty = true
    · rw [if_pos h2] at h
      simp at h
    · rw [if_neg h2] at h
      simp only [Option.some.injEq] at h
      exact h.symm

theorem mem_rolloutRows_shape (df : List FeatRow) (m : Model) (σ : ℚ) (months : Nat)
    (r : OutRow) (h : r ∈ rolloutRows df m σ months) :
    ∃ s i raw, r = mkOut σ s i raw := by
  rw [rolloutRows] at h
  obtain ⟨e, he, ho⟩ := List.mem_filterMap.mp h
  obtain ⟨hf, hout, hseed⟩ := trace_spec df m σ months e he
  rw [hout] at ho
  cases hfv : e.feats with
  | none => rw [hfv] at ho; simp at ho
  | some fv =>
    rw [hfv] at ho
    have ho2 : (m fv).map (mkOut σ e.seed e.step) = some r := ho
    cases hm : m fv with
    | none => rw [hm] at ho2; simp at ho2
    | some raw =>
      rw [hm] at ho2
      simp only [Option.map_some', Option.some.injEq] at ho2
      exact ⟨e.seed, e.step, raw, ho2.symm⟩

theorem filter_map_comm {α β : Type} (f : α → β) (p : β → Bool) (l : List α) :
    (l.map f).filter p = (l.filter (fun a => p (f a))).map f := by
  induction l with
  | nil => rfl
  | cons a l ih =>
    simp only [List.map_cons, List.filter_cons]
    by_cases h : p (f a) = true
    · simp [h, ih]
    · simp [h, ih]

/-! ## Claim theorems -/

/-- C3: in the feature table returned by `prepare_features`, the first
chronological row of every product has `lag_1 = lag_2 = lag_3 = diff_1 = 0`
and `ma_3 = ma_6 =` that row's own quantity: the moving averages use an
expanding window with minimum size 1 and are computed before the undefined
lag/diff values are filled with 0. -/
theorem C3_cold_start_fill (t : RawTable) (ft : List FeatRow) (p : String) (fr : FeatRow)
    (hft : prepare_features t = some ft)
    (hfr : (ft.filter (fun r => r.item == p)).head? = some fr) :
    fr.lag_1 = 0 ∧ fr.lag_2 = 0 ∧ fr.lag_3 = 0 ∧ fr.diff_1 = 0 ∧
      fr.ma_3 = fr.total_jumlah ∧ fr.ma_6 = fr.total_jumlah := by
  obtain ⟨hEq, -, -⟩ := prepare_features_some t ft hft
  subst hEq
  rw [makeFeatures_filter_item] at hfr
  exact featGroup_head _ fr hfr

/-- C4: grouping isolation — for two distinct products `A`, `B`, the
feature rows `prepare_features` computes for `A` are identical whether
`B`'s input rows are present or entirely removed. -/
theorem C4_grouping_isolation (t : RawTable) (A B : String) (ft ftB : List FeatRow)
    (hAB : A ≠ B)
    (h1 : prepare_features t = some ft)
    (h2 : prepare_features (dropItemRaw t B) = some ftB) :
    ftB.filter (fun fr => fr.item == A) = ft.filter (fun fr => fr.item == A) := by
  obtain ⟨hEq1, -, -⟩ := prepare_features_some t ft h1
  obtain ⟨hEq2, -, -⟩ := prepare_features_some _ ftB h2
  subst hEq1
  subst hEq2
  rw [makeFeatures_filter_item, makeFeatures_filter_item]
  rw [groupFor, groupFor]
  rw [dropItemRaw]
  simp only []
  rw [filter_map_comm, filter_map_comm]
  have hrows : (t.rows.filter (fun r => !(r.item == B))).filter
      (fun a => (toRow a).item == A) = t.rows.filter (fun a => (toRow a).item == A) := by
    rw [List.filter_filter]
    apply List.filter_congr
    intro x hx
    cases hxa : ((toRow x).item == A) with
    | false => simp
    | true =>
      have : x.item = A := eq_of_beq hxa
      have : (x.item == B) = false := by
        rw [this]
        exact beq_eq_false_iff_ne.mpr hAB
      simp [this]
  rw [hrows]

/-- C9: stable tie ordering — the rows of the feature table carrying one
`(product, period)` key are exactly the input rows with that key, in their
original input order. -/
theorem C9_stable_ties (t : RawTable) (ft : List FeatRow) (p : String) (per : Int)
    (hft : prepare_features t = some ft) :
    ((ft.filter (fun fr => fr.item == p && fr.periode == per)).map baseOf)
      = (t.rows.map toRow).filter (fun r => r.item == p && periodIdx r == per) := by
  obtain ⟨hEq, -, -⟩ := prepare_features_some t ft hft
  subst hEq
  have hsplit : (makeFeatures (t.rows.map toRow)).filter
      (fun fr => fr.item == p && fr.periode == per)
      = ((makeFeatures (t.rows.map toRow)).filter (fun fr => fr.item == p)).filter
          (fun fr => fr.periode == per) := by
    rw [List.filter_filter]
    apply List.filter_congr
    intro x hx
    cases hxi : (x.item == p) <;> cases hxp : (x.periode == per) <;> simp [hxi, hxp]
  rw [hsplit, makeFeatures_filter_item, featGroup, featGroupAux_filter_periode,
    groupFor, sortByPeriode]
  rw [filter_isort rowLt (fun r => periodIdx r == per) _ ?hlt]
  case hlt =>
    intro a b ha hb
    have ha2 : periodIdx a = per := eq_of_beq ha
    have hb2 : periodIdx b = per := eq_of_beq hb
    rw [rowLt, ha2, hb2]
    simp
  rw [List.filter_filter]
  apply List.filter_congr
  intro x hx
  cases hxi : (x.item == p) <;> cases hxp : (periodIdx x == per) <;> simp [hxi, hxp]

theorem C3_witness :
    frW3.lag_1 = 0 ∧ frW3.lag_2 = 0 ∧ frW3.lag_3 = 0 ∧ frW3.diff_1 = 0 ∧
      frW3.ma_3 = frW3.total_jumlah ∧ frW3.ma_6 = frW3.total_jumlah :=
  C3_cold_start_fill tW3 ftW3 "A" frW3
    (by
      rw [ftW3]
      rw [prepare_features]
      norm_num [validate_dataframe, bulanErrs, emptyErrs, rangeViolation, colMin, colMax,
        periods_ok, tW3, rrow, List.filterMap_cons, List.foldl_cons, min_def, max_def])
    (by
      norm_num [ftW3, tW3, rrow, toRow, makeFeatures, itemsSorted, isort, insBy, strLtB,
        groupFor, sortByPeriode, rowLt, featGroup, featGroupAux, mkFeatP, windowMean,
        periodIdx, frW3, List.filterMap_cons, List.filter_cons, List.foldl_cons])

theorem C4_witness :
    ftW4B.filter (fun fr => fr.item == "A") = ftW4.filter (fun fr => fr.item == "A") :=
  C4_grouping_isolation tW4 "A" "B" ftW4 ftW4B (by decide)
    (by
      rw [ftW4]
      rw [prepare_features]
      norm_num [validate_dataframe, bulanErrs, emptyErrs, rangeViolation, colMin, colMax,
        periods_ok, tW4, rrow, List.filterMap_cons, List.foldl_cons, min_def, max_def])
    (by
      have hrows : (dropItemRaw tW4 "B").rows = [rrow 2024 1 "A" 5, rrow 2024 2 "A" 6] := by
        simp [dropItemRaw, tW4, rrow]
      have hc1 : (dropItemRaw tW4 "B").hasTahun = true := rfl
      have hc2 : (dropItemRaw tW4 "B").hasBulan = true := rfl
      have hc3 : (dropItemRaw tW4 "B").hasItem = true := rfl
      have hc4 : (dropItemRaw tW4 "B").hasTotal = true := rfl
      rw [ftW4B, prepare_features]
      norm_num [validate_dataframe, bulanErrs, emptyErrs, rangeViolation, colMin, colMax,
        periods_ok, rrow, hrows, hc1, hc2, hc3, hc4, List.filterMap_cons, List.foldl_cons,
        min_def, max_def])

theorem C9_witness :
    ((ftW9.filter (fun fr => fr.item == "A" && fr.periode == 24288)).map baseOf)
      = (tW9.rows.map toRow).filter (fun r => r.item == "A" && periodIdx r == 24288) :=
  C9_stable_ties tW9 ftW9 "A" 24288
    (by
      rw [ftW9]
      rw [prepare_features]
      norm_num [validate_dataframe, bulanErrs, emptyErrs, rangeViolation, colMin, colMax,
        periods_ok, tW9, rrow, List.filterMap_cons, List.foldl_cons, min_def, max_def])

theorem prepare_none_of_invalid (t : RawTable)
    (h : (validate_dataframe t).is_valid = false) : prepare_features t = none := by
  rw [prepare_features, h]
  simp

theorem validate_cols (t : RawTable)
    (hc : (t.hasTahun && t.hasBulan && t.hasItem && t.hasTotal) = true) :
    validate_dataframe t =
      { is_valid := (bulanErrs t ++ emptyErrs t).isEmpty,
        errors := bulanErrs t ++ emptyErrs t,
        warnings := missingWarn t ++ tahunWarn t ++ negWarn t } := by
  rw [validate_dataframe, hc]
  simp

theorem validate_no_cols (t : RawTable)
    (hc : (t.hasTahun && t.hasBulan && t.hasItem && t.hasTotal) = false) :
    validate_dataframe t =
      { is_valid := false, errors := [VErr.missingCols], warnings := [] } := by
  rw [validate_dataframe, hc]
  simp

theorem bulanErrs_nonempty (t : RawTable)
    (h : ∃ r ∈ t.rows, ∃ b : ℚ, r.bulan = some b ∧ (b < 1 ∨ 12 < b)) :
    bulanErrs t = [VErr.bulanRange] := by
  obtain ⟨r, hr, b, hb, hout⟩ := h
  have hviol : rangeViolation (t.rows.filterMap (fun r => r.bulan)) 1 12 = true :=
    (rangeViolation_iff _ 1 12).mpr ⟨b, List.mem_filterMap.mpr ⟨r, hr, hb⟩, hout⟩
  rw [bulanErrs, hviol]
  simp

theorem bulanErrs_empty (t : RawTable)
    (h : ∀ r ∈ t.rows, ∀ b : ℚ, r.bulan = some b → 1 ≤ b ∧ b ≤ 12) :
    bulanErrs t = [] := by
  rw [bulanErrs]
  cases hviol : rangeViolation (t.rows.filterMap (fun r => r.bulan)) 1 12 with
  | false => simp
  | true =>
    exfalso
    obtain ⟨v, hv, hout⟩ := (rangeViolation_iff _ 1 12).mp hviol
    obtain ⟨r, hr, hb⟩ := List.mem_filterMap.mp hv
    obtain ⟨hlo, hhi⟩ := h r hr v hb
    rcases hout with hout | hout
    · exact absurd hlo (not_le.mpr hout)
    · exact absurd hhi (not_le.mpr hout)

/-- C6: schema rejection.  A missing required column, a (numeric) month
value outside `[1, 12]`, or an empty table is fatal: `prepare_features`
produces no feature table.  When the columns are present, the table is
non-empty and every numeric month is in range, validation passes — year
out of `[1900, 2100]`, missing values and negative quantities only add
non-fatal warnings — and, whenever the `periode` column can be built,
`prepare_features` returns the feature table. -/
theorem C6_schema_rejection (t : RawTable) :
    ((¬(t.hasTahun = true ∧ t.hasBulan = true ∧ t.hasItem = true ∧ t.hasTotal = true)
        ∨ (∃ r ∈ t.rows, ∃ b : ℚ, r.bulan = some b ∧ (b < 1 ∨ 12 < b))
        ∨ t.rows = []) →
      prepare_features t = none)
    ∧ ((t.hasTahun && t.hasBulan && t.hasItem && t.hasTotal) = true →
       t.rows ≠ [] →
       (∀ r ∈ t.rows, ∀ b : ℚ, r.bulan = some b → 1 ≤ b ∧ b ≤ 12) →
         (validate_dataframe t).is_valid = true
         ∧ ((∃ r ∈ t.rows, ∃ y : ℚ, r.tahun = some y ∧ (y < 1900 ∨ 2100 < y)) →
              VWarn.tahunRange ∈ (validate_dataframe t).warnings)
         ∧ ((∃ r ∈ t.rows, r.tahun = none ∨ r.bulan = none ∨ r.qty = none) →
              VWarn.missingVals ∈ (validate_dataframe t).warnings)
         ∧ ((∃ r ∈ t.rows, ∃ q : ℚ, r.qty = some q ∧ q < 0) →
              VWarn.negQty ∈ (validate_dataframe t).warnings)
         ∧ (periods_ok t.rows = true →
              prepare_features t = some (makeFeatures (t.rows.map toRow)))) := by
  constructor
  · intro hfatal
    apply prepare_none_of_invalid
    by_cases hc : (t.hasTahun && t.hasBulan && t.hasItem && t.hasTotal) = true
    · rw [validate_cols t hc]
      rcases hfatal with hmiss | hmonth | hempty
      · exfalso
        apply hmiss
        simp only [Bool.and_eq_true] at hc
        exact ⟨hc.1.1.1, hc.1.1.2, hc.1.2, hc.2⟩
      · rw [bulanErrs_nonempty t hmonth]
        simp
      · have : emptyErrs t = [VErr.emptyDf] := by
          rw [emptyErrs, hempty]
          simp
        rw [this]
        simp
    · rw [validate_no_cols t (by revert hc; cases (t.hasTahun && t.hasBulan && t.hasItem && t.hasTotal) <;> simp)]
  · intro hc hrows hmonths
    have hbe : bulanErrs t = [] := bulanErrs_empty t hmonths
    have hee : emptyErrs t = [] := by
      rw [emptyErrs]
      cases hr : t.rows with
      | nil => exact absurd hr hrows
      | cons a l => simp
    rw [validate_cols t hc]
    refine ⟨by simp [hbe, hee], ?_, ?_, ?_, ?_⟩
    · rintro ⟨r, hr, y, hy, hout⟩
      have hviol : rangeViolation (t.rows.filterMap (fun r => r.tahun)) 1900 2100 = true :=
        (rangeViolation_iff _ 1900 2100).mpr ⟨y, List.mem_filterMap.mpr ⟨r, hr, hy⟩, hout⟩
      have : tahunWarn t = [VWarn.tahunRange] := by
        rw [tahunWarn, hviol]
        simp
      simp [this]
    · rintro ⟨r, hr, hnone⟩
      have hany : t.rows.any (fun r => r.tahun.isNone || r.bulan.isNone || r.qty.isNone) = true := by
        apply List.any_eq_true.mpr
        refine ⟨r, hr, ?_⟩
        rcases hnone with h | h | h <;> simp [h]
      have : missingWarn t = [VWarn.missingVals] := by
        rw [missingWarn, hany]
        simp
      simp [this]
    · rintro ⟨r, hr, q, hq, hneg⟩
      have hany : t.rows.any
          (fun r => match r.qty with | some q => decide (q < 0) | none => false) = true := by
        apply List.any_eq_true.mpr
        exact ⟨r, hr, by rw [hq]; simpa using hneg⟩
      have : negWarn t = [VWarn.negQty] := by
        rw [negWarn, hany]
        simp
      simp [this]
    · intro hper
      have hvalid : (validate_dataframe t).is_valid = true := by
        rw [validate_cols t hc]
        simp [hbe, hee]
      rw [prepare_features, hvalid, hper]
      simp

/-- C10: months that all fail numeric parsing (NaN after coercion) do not
trigger the fatal month-range error — the min/max comparison against NaN
is false — so a table with all four columns and at least one row is still
judged valid, with only the non-fatal missing-values warning emitted; the
mandatory month check is enforced only over values that parse as numbers. -/
theorem C10_nan_months_pass (t : RawTable)
    (h1 : (t.hasTahun && t.hasBulan && t.hasItem && t.hasTotal) = true)
    (h2 : t.rows ≠ [])
    (h3 : ∀ r ∈ t.rows, r.bulan = none) :
    (validate_dataframe t).is_valid = true ∧ (validate_dataframe t).errors = [] ∧
      VWarn.missingVals ∈ (validate_dataframe t).warnings := by
  have hvals : t.rows.filterMap (fun r => r.bulan) = [] := by
    apply List.filterMap_eq_nil_iff.mpr
    exact h3
  have hbe : bulanErrs t = [] := by
    rw [bulanErrs, hvals]
    simp [rangeViolation, colMin, colMax]
  have hee : emptyErrs t = [] := by
    rw [emptyErrs]
    cases hr : t.rows with
    | nil => exact absurd hr h2
    | cons a l => simp
  have hmw : missingWarn t = [VWarn.missingVals] := by
    cases hr : t.rows with
    | nil => exact absurd hr h2
    | cons a l =>
      have ha : a.bulan = none := h3 a (by rw [hr]; exact List.mem_cons.mpr (Or.inl rfl))
      rw [missingWarn, hr]
      have : (a.tahun.isNone || a.bulan.isNone || a.qty.isNone) = true := by
        simp [ha]
      simp [List.any_cons, this]
  rw [validate_cols t h1]
  simp [hbe, hee, hmw]

theorem C6_witness :
    prepare_features tW6bad = none ∧
    ((validate_dataframe tW6warn).is_valid = true ∧
      VWarn.tahunRange ∈ (validate_dataframe tW6warn).warnings ∧
      VWarn.missingVals ∈ (validate_dataframe tW6warn).warnings ∧
      VWarn.negQty ∈ (validate_dataframe tW6warn).warnings ∧
      prepare_features tW6warn = some (makeFeatures (tW6warn.rows.map toRow))) := by
  constructor
  · exact (C6_schema_rejection tW6bad).1
      (Or.inr (Or.inl ⟨rrow 2024 0 "A" 5, by simp [tW6bad], 0, rfl, Or.inl (by norm_num)⟩))
  · have hmo : ∀ r ∈ tW6warn.rows, ∀ b : ℚ, r.bulan = some b → 1 ≤ b ∧ b ≤ 12 := by
      intro r hr b hb
      simp only [tW6warn, List.mem_cons, List.not_mem_nil, or_false] at hr
      rcases hr with h | h <;> subst h <;>
        simp only [Option.some.injEq] at hb <;> subst hb <;> norm_num
    obtain ⟨hvalid, htah, hmiss, hneg, hsome⟩ :=
      (C6_schema_rejection tW6warn).2 rfl (by simp [tW6warn]) hmo
    refine ⟨hvalid, ?_, ?_, ?_, hsome (by decide)⟩
    · exact htah ⟨_, List.mem_cons.mpr (Or.inl rfl), 1800, rfl, Or.inl (by norm_num)⟩
    · exact hmiss ⟨_, List.mem_cons.mpr (Or.inr (List.mem_cons.mpr (Or.inl rfl))),
        Or.inr (Or.inr rfl)⟩
    · exact hneg ⟨_, List.mem_cons.mpr (Or.inl rfl), -2, rfl, by norm_num⟩

theorem C10_witness :
    (validate_dataframe tW10).is_valid = true ∧ (validate_dataframe tW10).errors = [] ∧
      VWarn.missingVals ∈ (validate_dataframe tW10).warnings :=
  C10_nan_months_pass tW10 rfl (by simp [tW10])
    (by
      intro r hr
      simp only [tW10, List.mem_cons, List.not_mem_nil, or_false] at hr
      subst hr
      rfl)

theorem featsOfLags_lag_1 (s : FeatRow) (i : Nat) (lags : ℚ × ℚ × ℚ) :
    (featsOfLags s i lags).lag_1 = lags.1 := rfl

theorem featsOfLags_lag_2 (s : FeatRow) (i : Nat) (lags : ℚ × ℚ × ℚ) :
    (featsOfLags s i lags).lag_2 = lags.2.1 := rfl

theorem featsOfLags_lag_3 (s : FeatRow) (i : Nat) (lags : ℚ × ℚ × ℚ) :
    (featsOfLags s i lags).lag_3 = lags.2.2 := rfl

theorem stepLags_one (preds : List OutRow) (s : FeatRow) :
    stepLags preds s 1 = some (s.total_jumlah, s.lag_1, s.lag_2) := by
  rw [stepLags]
  simp

theorem isEmpty_false_of_ne_nil {α : Type} (l : List α) (h : l ≠ []) :
    l.isEmpty = false := by
  cases l with
  | nil => exact absurd rfl h
  | cons a as => rfl

theorem stepLags_ge2_empty (preds : List OutRow) (s : FeatRow) (i : Nat)
    (h2 : 2 ≤ i) (hp : preds = []) : stepLags preds s i = none := by
  rw [stepLags]
  have hne : ¬ i = 1 := by omega
  rw [if_neg hne, hp]
  rfl

theorem stepLags_ge2_some (preds : List OutRow) (s : FeatRow) (i : Nat) (q : ℚ)
    (h2 : 2 ≤ i) (hp : preds ≠ [])
    (hq : lookupPred preds s.item (s.periode + (i : Int) - 1) = some q) :
    stepLags preds s i =
      some (q, (lookupPred preds s.item (s.periode + (i : Int) - 2)).getD s.lag_1,
        if 3 ≤ i then (lookupPred preds s.item (s.periode + (i : Int) - 3)).getD s.lag_2
        else s.lag_2) := by
  rw [stepLags]
  have hne : ¬ i = 1 := by omega
  rw [if_neg hne, isEmpty_false_of_ne_nil preds hp]
  simp only [Bool.false_eq_true, if_false]
  rw [hq]

theorem stepLags_ge2_none (preds : List OutRow) (s : FeatRow) (i : Nat)
    (h2 : 2 ≤ i) (hp : preds ≠ [])
    (hq : lookupPred preds s.item (s.periode + (i : Int) - 1) = none) :
    stepLags preds s i = some (s.total_jumlah, s.lag_1, s.lag_2) := by
  rw [stepLags]
  have hne : ¬ i = 1 := by omega
  rw [if_neg hne, isEmpty_false_of_ne_nil preds hp]
  simp only [Bool.false_eq_true, if_false]
  rw [hq]

/-- C5: every Forecast Row of `predict_future` has a non-negative
prediction and a non-negative `CI_lower`, whatever the sign of the raw
model output: the raw prediction is clamped with `max(pred, 0)` and
`CI_lower` with `max(prediction - 1.96·std_pred, 0)`. -/
theorem C5_nonneg (df : List FeatRow) (m : Model) (σ : ℚ) (months : Nat)
    (out : List OutRow) (r : OutRow)
    (hout : predict_future df m σ months = some out) (hr : r ∈ out) :
    0 ≤ r.pred ∧ 0 ≤ r.CI_lower := by
  rw [predict_future_some df m σ months out hout, sortOut, mem_isort] at hr
  obtain ⟨s, i, raw, hEq⟩ := mem_rolloutRows_shape df m σ months r hr
  subst hEq
  constructor
  · show (0:ℚ) ≤ max raw 0
    exact le_max_right _ _
  · show (0:ℚ) ≤ max (max raw 0 - zCI * σ) 0
    exact le_max_right _ _

theorem C5_witness : 0 ≤ outW5.pred ∧ 0 ≤ outW5.CI_lower :=
  C5_nonneg [seedA] mW5 1 1 [outW5] outW5
    (by
      norm_num [predict_future, rolloutRows, rolloutTrace, outerLoop, innerPass, runStep,
        nextPreds, stepFeats, stepLags, featsOfLags, mkOut, last_data, lookupPred, mW5, seedA, sortOut,
        isort, insBy, outLt, zCI, perYear, perMonth, outW5, strLtB]
      intro h
      exact absurd h (by simp))
    (List.mem_cons.mpr (Or.inl rfl))

/-- C2 (amended): the 95% band of a produced row has width
`2 × 1.96 × std_pred` whenever the row's clamped prediction is at least
`1.96 × std_pred` (so that the `max(..., 0)` clamp of `CI_lower` is
inactive); when the prediction is smaller, `CI_lower` is clamped to 0 and
the width is `prediction + 1.96 × std_pred` instead. -/
theorem C2_band_width (df : List FeatRow) (m : Model) (σ : ℚ) (months : Nat)
    (out : List OutRow) (r : OutRow)
    (hout : predict_future df m σ months = some out) (hr : r ∈ out)
    (hp : zCI * σ ≤ r.pred) :
    r.CI_upper - r.CI_lower = 2 * zCI * σ := by
  rw [predict_future_some df m σ months out hout, sortOut, mem_isort] at hr
  obtain ⟨s, i, raw, hEq⟩ := mem_rolloutRows_shape df m σ months r hr
  subst hEq
  have hp2 : zCI * σ ≤ max raw 0 := hp
  show max raw 0 + zCI * σ - max (max raw 0 - zCI * σ) 0 = 2 * zCI * σ
  rw [max_eq_left (sub_nonneg.mpr hp2)]
  ring

theorem C2_witness : outW2.CI_upper - outW2.CI_lower = 2 * zCI * 0 :=
  C2_band_width [seedA] mW2 0 1 [outW2] outW2
    (by
      norm_num [predict_future, rolloutRows, rolloutTrace, outerLoop, innerPass, runStep,
        nextPreds, stepFeats, stepLags, featsOfLags, mkOut, last_data, lookupPred, mW2, seedA, sortOut,
        isort, insBy, outLt, zCI, perYear, perMonth, outW2, strLtB]
      intro h
      exact absurd h (by simp))
    (List.mem_cons.mpr (Or.inl rfl))
    (by norm_num [outW2, zCI])

/-- C2 is false as stated: with the concrete history `dfX2` (quantities
1, 2, 0 for one product) and the constant-1 model `mX2`, the residuals are
`[0, 1, -1]`, whose sample variance is 1, so `std_pred = 1` exactly; the
single forecast row of the rollout has prediction 1 < 1.96, its `CI_lower`
is clamped to 0, and the band width is `1 + 1.96 = 2.96 ≠ 2 × 1.96 × 1`. -/
theorem C2_counterexample :
    residualsOf dfX2 mX2 = some [0, 1, -1] ∧ sampleVar [0, 1, -1] = 1 ∧
    predict_future dfX2 mX2 1 1 = some [outX2] ∧
    outX2.CI_upper - outX2.CI_lower ≠ 2 * zCI * 1 := by
  refine ⟨?_, ?_, ?_, ?_⟩
  · norm_num [residualsOf, dfX2, mX2, makeFeatures, itemsSorted, isort, insBy, groupFor,
      sortByPeriode, rowLt, featGroup, featGroupAux, mkFeatP, windowMean, List.mapM,
      List.mapM.loop, periodIdx, featVecOf, List.filterMap_cons, List.filter_cons,
      List.foldl_cons, strLtB]
  · norm_num [sampleVar, listMean]
  · norm_num [predict_future, rolloutRows, rolloutTrace, outerLoop, innerPass, runStep,
      nextPreds, stepFeats, stepLags, featsOfLags, mkOut, last_data, lookupPred, dfX2, mX2, makeFeatures,
      itemsSorted, isort, insBy, groupFor, sortByPeriode, rowLt, featGroup, featGroupAux,
      mkFeatP, windowMean, periodIdx, sortOut, outLt, zCI, perYear, perMonth, outX2,
      strLtB, List.filterMap_cons, List.filter_cons, List.foldl_cons]
  · norm_num [outX2, zCI]

/-- C8: within one rollout, every feature vector handed to the model
carries the seed row's historical `ma_6` unchanged (it is never recomputed
from new predictions), while `ma_3` is recomputed at each step as the mean
of the step's three lags and `diff_1` as `lag_1 - lag_2`. -/
theorem C8_ma6_freeze (df : List FeatRow) (m : Model) (σ : ℚ) (months : Nat)
    (e : StepRec) (he : e ∈ rolloutTrace df m σ months) :
    ∀ fv, e.feats = some fv →
      fv.ma_6 = e.seed.ma_6 ∧
      fv.ma_3 = (fv.lag_1 + fv.lag_2 + fv.lag_3) / 3 ∧
      fv.diff_1 = fv.lag_1 - fv.lag_2 := by
  intro fv hfv
  obtain ⟨hf, -, -⟩ := trace_spec df m σ months e he
  rw [hf, stepFeats] at hfv
  cases hl : stepLags e.predsBefore e.seed e.step with
  | none => rw [hl] at hfv; simp at hfv
  | some lags =>
    rw [hl] at hfv
    simp only [Option.map_some', Option.some.injEq] at hfv
    subst hfv
    exact ⟨rfl, rfl, rfl⟩

theorem C8_witness :
    ∃ fv, eW8.feats = some fv ∧
      fv.ma_6 = eW8.seed.ma_6 ∧
      fv.ma_3 = (fv.lag_1 + fv.lag_2 + fv.lag_3) / 3 ∧
      fv.diff_1 = fv.lag_1 - fv.lag_2 := by
  obtain ⟨fv, hfv⟩ : ∃ fv, eW8.feats = some fv := ⟨_, rfl⟩
  refine ⟨fv, hfv, ?_⟩
  exact C8_ma6_freeze [seedA] mW1 0 1 eW8
    (by
      have h : rolloutTrace [seedA] mW1 0 1 = [eW8] := rfl
      rw [h]
      exact List.mem_cons.mpr (Or.inl rfl))
    fv hfv

/-- C1 (amended): the lag recurrence of `predict_future`'s rollout.
Step 1 shifts the seed's own history: `lag_1` = seed quantity, `lag_2` =
seed `lag_1`, `lag_3` = seed `lag_2`.  At step `i ≥ 2` with an *empty*
accumulated prediction set, the iteration raises (`KeyError` on the
column-less `pd.DataFrame([])`, lines 282-286) and is skipped — no
feature vector is built and no row produced.  At step `i ≥ 2` with a
non-empty set, when the product's step `i-1` prediction is present
(looked up by product + period), `lag_1` is that prediction, `lag_2` is
the step `i-2` prediction when present and the seed's `lag_1` otherwise
(for `i = 2` no such prediction can exist), and `lag_3` is the step `i-3`
lookup's value when `i ≥ 3` (falling back to the seed's `lag_2`), and
directly the seed's `lag_2` when `i = 2`.  When the step `i-1` prediction
is absent, all three lags reset to the step-1 values — in particular
`lag_1` falls back to the seed's *actual quantity*, not to the seed's
`lag_1` as originally claimed. -/
theorem C1_rollout_lags (df : List FeatRow) (m : Model) (σ : ℚ) (months : Nat)
    (e : StepRec) (he : e ∈ rolloutTrace df m σ months) :
    (e.step = 1 →
      ∃ fv, e.feats = some fv ∧
        fv.lag_1 = e.seed.total_jumlah ∧ fv.lag_2 = e.seed.lag_1 ∧
        fv.lag_3 = e.seed.lag_2)
    ∧ (2 ≤ e.step → e.predsBefore = [] → e.feats = none ∧ e.out = none)
    ∧ (2 ≤ e.step → e.predsBefore ≠ [] →
       ∃ fv, e.feats = some fv ∧
       ((∀ q : ℚ,
           lookupPred e.predsBefore e.seed.item
               (e.seed.periode + (e.step : Int) - 1) = some q →
             fv.lag_1 = q ∧
             fv.lag_2 = (lookupPred e.predsBefore e.seed.item
                 (e.seed.periode + (e.step : Int) - 2)).getD e.seed.lag_1 ∧
             (3 ≤ e.step → fv.lag_3 = (lookupPred e.predsBefore e.seed.item
                 (e.seed.periode + (e.step : Int) - 3)).getD e.seed.lag_2) ∧
             (e.step = 2 → fv.lag_3 = e.seed.lag_2))
        ∧ (lookupPred e.predsBefore e.seed.item
               (e.seed.periode + (e.step : Int) - 1) = none →
             fv.lag_1 = e.seed.total_jumlah ∧ fv.lag_2 = e.seed.lag_1 ∧
               fv.lag_3 = e.seed.lag_2))) := by
  obtain ⟨hf, hout, -⟩ := trace_spec df m σ months e he
  refine ⟨?_, ?_, ?_⟩
  · intro h1
    refine ⟨featsOfLags e.seed e.step
        (e.seed.total_jumlah, e.seed.lag_1, e.seed.lag_2), ?_, rfl, rfl, rfl⟩
    rw [hf, stepFeats, h1, stepLags_one]
    rfl
  · intro h2 hp
    have hfn : e.feats = none := by
      rw [hf, stepFeats, stepLags_ge2_empty e.predsBefore e.seed e.step h2 hp]
      rfl
    refine ⟨hfn, ?_⟩
    rw [hout, hfn]
    rfl
  · intro h2 hp
    cases hq : lookupPred e.predsBefore e.seed.item
        (e.seed.periode + (e.step : Int) - 1) with
    | some q =>
      have hl := stepLags_ge2_some e.predsBefore e.seed e.step q h2 hp hq
      refine ⟨featsOfLags e.seed e.step
          (q, (lookupPred e.predsBefore e.seed.item
              (e.seed.periode + (e.step : Int) - 2)).getD e.seed.lag_1,
            if 3 ≤ e.step then (lookupPred e.predsBefore e.seed.item
              (e.seed.periode + (e.step : Int) - 3)).getD e.seed.lag_2
            else e.seed.lag_2), ?_, ?_, ?_⟩
      · rw [hf, stepFeats, hl]
        rfl
      · intro q2 hq2
        have hqq : q = q2 := by simpa using hq2
        subst hqq
        refine ⟨rfl, rfl, ?_, ?_⟩
        · intro h3
          show (if 3 ≤ e.step then _ else _) = _
          rw [if_pos h3]
        · intro hs2
          have hn3 : ¬ 3 ≤ e.step := by omega
          show (if 3 ≤ e.step then _ else _) = _
          rw [if_neg hn3]
      · intro hq2
        exact absurd hq2 (by simp)
    | none =>
      have hl := stepLags_ge2_none e.predsBefore e.seed e.step h2 hp hq
      refine ⟨featsOfLags e.seed e.step
          (e.seed.total_jumlah, e.seed.lag_1, e.seed.lag_2), ?_, ?_, ?_⟩
      · rw [hf, stepFeats, hl]
        rfl
      · intro q2 hq2
        exact absurd hq2 (by simp)
      · intro hq2
        exact ⟨rfl, rfl, rfl⟩

theorem C1_witness :
    ∃ fv, eW1.feats = some fv ∧
      fv.lag_1 = 3 ∧
      fv.lag_2 = (lookupPred eW1.predsBefore eW1.seed.item
          (eW1.seed.periode + (eW1.step : Int) - 2)).getD eW1.seed.lag_1 ∧
      fv.lag_3 = eW1.seed.lag_2 := by
  have hmem : eW1 ∈ rolloutTrace [seedA] mW1 0 2 := by
    have h : rolloutTrace [seedA] mW1 0 2 = [runStep mW1 0 [] seedA 1, eW1] := rfl
    rw [h]
    exact List.mem_cons.mpr (Or.inr (List.mem_cons.mpr (Or.inl rfl)))
  have h2 : 2 ≤ eW1.step := by norm_num [eW1, runStep]
  have hp : eW1.predsBefore ≠ [] := by simp [eW1, runStep]
  have hq : lookupPred eW1.predsBefore eW1.seed.item
      (eW1.seed.periode + (eW1.step : Int) - 1) = some 3 := by
    norm_num [eW1, runStep, oW1, mkOut, seedA, lookupPred, zCI, max_def]
  obtain ⟨fv, hfv, hsm, -⟩ := ((C1_rollout_lags [seedA] mW1 0 2 eW1 hmem).2.2) h2 hp
  obtain ⟨hl1, hl2, -, hl3⟩ := hsm 3 hq
  exact ⟨fv, hfv, hl1, hl2, hl3 rfl⟩

/-- C1 is false as stated: in the rollout of `mX1` over the two seeds
`[seedA, seedX1]`, the model raises only at product "B"'s step-1
invocation (the single model failure of the run); at step 2 the
accumulated prediction set is non-empty — product "A"'s rows are in it,
so no `KeyError` occurs and lines 308-311 genuinely execute — but it
holds no step-1 prediction for product "B", and the computed `lag_1` is
the seed's actual quantity 100, not the seed's `lag_1` (= 90) that the
claim's fallback asserts. -/
theorem C1_counterexample :
    ∃ e ∈ rolloutTrace [seedA, seedX1] mX1 0 2,
      2 ≤ e.step ∧ e.predsBefore ≠ [] ∧
      lookupPred e.predsBefore e.seed.item (e.seed.periode + (e.step : Int) - 1) = none ∧
      e.seed.lag_1 = 90 ∧ e.seed.total_jumlah = 100 ∧
      e.feats.map (fun fv => fv.lag_1) = some 100 := by
  refine ⟨runStep mX1 0 [mkOut 0 seedA 1 7, mkOut 0 seedA 2 7] seedX1 2, ?_,
    by norm_num [runStep], by simp [runStep], ?_, rfl, rfl, ?_⟩
  · have h : rolloutTrace [seedA, seedX1] mX1 0 2
        = [runStep mX1 0 [] seedA 1,
           runStep mX1 0 [mkOut 0 seedA 1 7] seedX1 1,
           runStep mX1 0 [mkOut 0 seedA 1 7] seedA 2,
           runStep mX1 0 [mkOut 0 seedA 1 7, mkOut 0 seedA 2 7] seedX1 2] := rfl
    rw [h]
    exact List.mem_cons.mpr (Or.inr (List.mem_cons.mpr (Or.inr
      (List.mem_cons.mpr (Or.inr (List.mem_cons.mpr (Or.inl rfl)))))))
  · norm_num [runStep, lookupPred, mkOut, seedA, seedX1, List.filter_cons, zCI, max_def]
    decide
  · rfl

theorem trace_keys_nodup (df : List FeatRow) (m : Model) (σ : ℚ) (months : Nat) :
    (traceKeys (rolloutTrace df m σ months)).Nodup := by
  rw [traceKeys, rolloutTrace, outerLoop_keys]
  exact combosFrom_nodup (last_data df) (last_data_items_nodup df) months 1

theorem trace_out_keys (df : List FeatRow) (m : Model) (σ : ℚ) (months : Nat) :
    ∀ e ∈ rolloutTrace df m σ months, ∀ o, e.out = some o → outKey o = entryKey e := by
  intro e he o ho
  obtain ⟨-, hout, -⟩ := trace_spec df m σ months e he
  rw [hout] at ho
  cases hfv : e.feats with
  | none => rw [hfv] at ho; simp at ho
  | some fv =>
    rw [hfv] at ho
    have ho2 : (m fv).map (mkOut σ e.seed e.step) = some o := ho
    cases hm : m fv with
    | none => rw [hm] at ho2; simp at ho2
    | some raw =>
      rw [hm] at ho2
      simp only [Option.map_some', Option.some.injEq] at ho2
      rw [← ho2]
      rfl

/-- C7 (amended): partial failure tolerance.  The rollout attempts
exactly the `(product, period)` combinations `combos (last_data df)
months` (every product's seed, every step `1..months`); when exactly one
*iteration* produces no row — whether because the model raised on it, or
because at a step `i ≥ 2` the still-empty `future_preds` made the lag
lookup raise `KeyError` (lines 282-286) before the model was invoked —
the table returned by `predict_future` contains a row for every other
combination and omits only the failed one; an iteration at step `i ≥ 2`
whose accumulated prediction set is empty always fails this way, building
no feature vector at all; and when no row at all succeeds,
`predict_future` returns `None` (the explicit "no predictions produced"
failure) rather than an empty table. -/
theorem C7_partial_failure (df : List FeatRow) (m : Model) (σ : ℚ) (months : Nat)
    (k0 : String × Int) (out : List OutRow) :
    traceKeys (rolloutTrace df m σ months) = combos (last_data df) months
    ∧ (predict_future df m σ months = some out →
       failKeys (rolloutTrace df m σ months) = [k0] →
       ∀ k, k ∈ outKeysOf out ↔ (k ∈ combos (last_data df) months ∧ k ≠ k0))
    ∧ (rolloutRows df m σ months = [] → predict_future df m σ months = none)
    ∧ (∀ e ∈ rolloutTrace df m σ months, 2 ≤ e.step → e.predsBefore = [] →
        e.feats = none ∧ e.out = none) := by
  have hkeys : traceKeys (rolloutTrace df m σ months) = combos (last_data df) months := by
    rw [traceKeys, rolloutTrace, outerLoop_keys]
    rfl
  refine ⟨hkeys, ?_, ?_, ?_⟩
  · intro hsome hfail k
    have hsorted := predict_future_some df m σ months out hsome
    have hperm : outKeysOf out = (sortOut (rolloutRows df m σ months)).map outKey := by
      rw [hsorted, outKeysOf]
    have hmem1 : k ∈ outKeysOf out ↔ k ∈ outKeysOf (rolloutRows df m σ months) := by
      rw [hperm, outKeysOf]
      exact ((isort_perm outLt (rolloutRows df m σ months)).map outKey).mem_iff
    have hmem2 : outKeysOf (rolloutRows df m σ months)
        = ((rolloutTrace df m σ months).filter (fun e => e.out.isSome)).map entryKey := by
      rw [outKeysOf, rolloutRows]
      exact filterMap_out_keys _ (trace_out_keys df m σ months)
    have hnotfilter : (rolloutTrace df m σ months).filter (fun e => !(e.out.isSome))
        = (rolloutTrace df m σ months).filter (fun e => e.out.isNone) := by
      apply List.filter_congr
      intro x hx
      cases x.out <;> rfl
    have hiff := filter_map_mem_iff entryKey (fun e => e.out.isSome)
      (rolloutTrace df m σ months) (trace_keys_nodup df m σ months) k
    rw [hmem1, hmem2, hiff, hnotfilter]
    have hfk : ((rolloutTrace df m σ months).filter (fun e => e.out.isNone)).map entryKey
        = [k0] := hfail
    rw [hfk, ← hkeys, traceKeys]
    simp [List.mem_singleton]
  · intro hempty
    rw [predict_future]
    by_cases hm : (months == 0 || decide (12 < months)) = true
    · rw [if_pos hm]
    · rw [if_neg hm, hempty]
      simp
  · intro e he h2 hp
    obtain ⟨hf, hout, -⟩ := trace_spec df m σ months e he
    have hfn : e.feats = none := by
      rw [hf, stepFeats, stepLags_ge2_empty e.predsBefore e.seed e.step h2 hp]
      rfl
    refine ⟨hfn, ?_⟩
    rw [hout, hfn]
    rfl

theorem C7_witness :
    ("A", (24290 : Int)) ∈ outKeysOf outW7 ∧ ("B", (24289 : Int)) ∉ outKeysOf outW7 := by
  have hsome : predict_future [seedA, seedB] mW7 0 2 = some outW7 := by
    norm_num [predict_future, rolloutRows, rolloutTrace, outerLoop, innerPass, runStep,
      nextPreds, stepFeats, stepLags, featsOfLags, mkOut, last_data, lookupPred, mW7, seedA, seedB,
      sortOut, isort, insBy, outLt, zCI, perYear, perMonth, outW7, strLtB,
      List.filter_cons, List.filterMap_cons]
  have hAB : ¬ ("A" = "B") := by decide
  have hBA : ¬ ("B" = "A") := by decide
  have hfail : failKeys (rolloutTrace [seedA, seedB] mW7 0 2) = [("B", 24289)] := by
    norm_num [failKeys, rolloutTrace, outerLoop, innerPass, runStep, nextPreds, stepFeats,
      stepLags, featsOfLags, mkOut, last_data, lookupPred, mW7, seedA, seedB, zCI, perYear, perMonth,
      entryKey, List.filter_cons, strLtB, hAB, hBA]
  have H := (C7_partial_failure [seedA, seedB] mW7 0 2 ("B", 24289) outW7).2.1 hsome hfail
  constructor
  · exact (H ("A", 24290)).mpr ⟨by decide, by decide⟩
  · intro hmem
    exact ((H ("B", 24289)).mp hmem).2 rfl

/-- C7 is false as stated: over the single seed `seedX1` with the model
`mX1` (which raises only on that seed's step-1 feature vector) and
horizon 2, the model raises at exactly one `(product, step)` combination
— `("B", step 1)`, the only iteration where a feature vector was built
and the model returned no value — yet the returned table does not
contain the other combination `("B", step 2)`: that iteration finds
`future_preds` still empty, raises `KeyError` on the column-less
`pd.DataFrame([])` (lines 282-286) before the model is ever invoked, and
is skipped too, so zero rows succeed and `predict_future` returns `None`
instead of a table holding the other combination. -/
theorem C7_counterexample :
    ((rolloutTrace [seedX1] mX1 0 2).filter
        (fun e => e.feats.isSome && e.out.isNone)).map entryKey = [("B", 24289)] ∧
    ((rolloutTrace [seedX1] mX1 0 2).filter
        (fun e => e.feats.isNone)).map entryKey = [("B", 24290)] ∧
    ("B", (24290 : Int)) ∈ combos (last_data [seedX1]) 2 ∧
    predict_future [seedX1] mX1 0 2 = none := by
  refine ⟨?_, ?_, ?_, ?_⟩ <;> decide
